import Mathlib

/-!
Verification of the data-restore dispatcher in
`src/myloader/myloader_worker_loader_main.c`.

The C file is embedded shallowly: every global variable of the dispatcher
(`control_job_ended`, `all_jobs_are_enqueued`, `threads_waiting`, the
control queue, the per-table fields read or written by this file) becomes a
field of `GlobalState`, and every function becomes a state transformer.
Restore jobs are identified by natural numbers.  Machinery of the C runtime
that carries no dispatch logic (mutex acquisition, `trace`/`g_debug`
logging, the `dispatch_iterations`/`jobs_dispatched`/`queue_hits`/
`queue_misses` statistics counters that feed only log lines) is elided;
the `--no-data` NULL checks on the queues and the waiting mutex are kept,
as `Option`/`Bool` fields.  Functions the file calls but that live in other
translation units (`enqueue_index_for_dbt_if_possible`, `data_ended`,
`refresh_table_list`, `enqueue_indexes_if_possible`, `data_job_push`) are
modelled from the specification as appends to observable logs.
-/

namespace MyloaderMain

/-- Modelled from the spec: the `schema_status` enum is declared in a header
outside this file; the spec lists its order as
NOT_FOUND < NOT_CREATED < CREATING < CREATED < DATA_DONE < ALL_DONE
(monotonically non-decreasing lifecycle).  The numeric `code` realises the
C comparison `current_state >= DATA_DONE`. -/
inductive SchemaStatus where
  | NOT_FOUND
  | NOT_CREATED
  | CREATING
  | CREATED
  | DATA_DONE
  | ALL_DONE
deriving DecidableEq

/-- Numeric value of a `SchemaStatus`, in the declared enum order. -/
def SchemaStatus.code : SchemaStatus → Nat
  | .NOT_FOUND => 0
  | .NOT_CREATED => 1
  | .CREATING => 2
  | .CREATED => 3
  | .DATA_DONE => 4
  | .ALL_DONE => 5

/-- Modelled from the spec: the `data_control_type` enum declared outside
this file; the spec fixes the event set as
REQUEST_DATA_JOB, WAKE_DATA_THREAD, FILE_TYPE_SCHEMA_ENDED,
FILE_TYPE_ENDED, SHUTDOWN. -/
inductive DataControlType where
  | REQUEST_DATA_JOB
  | WAKE_DATA_THREAD
  | FILE_TYPE_ENDED
  | SHUTDOWN
  | FILE_TYPE_SCHEMA_ENDED
deriving DecidableEq

/-- Observable actions of the dispatcher, recorded in order of occurrence.
Used to state ordering claims about straight-line handler code. -/
inductive TraceEvt where
  | refreshTableList
  | enqueueIndexesIfPossible
  | setAllJobsEnqueued
  | pushedControl (ft : DataControlType)
  | dataEnded
deriving DecidableEq

/-- One `struct db_table` as read and written by this file.  The back
pointer `dbt->database->schema_state` is flattened into `db_schema_state`;
`dbt->object_to_export.no_data` into `no_data`; the atomic
`dbt->remaining_jobs` into `remaining_jobs`.  `restore_job_list` holds the
identifiers of the pending restore jobs, head first. -/
structure DbTable where
  schema_state : SchemaStatus
  db_schema_state : SchemaStatus
  is_view : Bool
  is_sequence : Bool
  no_data : Bool
  job_count : Nat
  restore_job_list : List Nat
  current_threads : Nat
  max_threads : Nat
  in_ready_queue : Bool
  remaining_jobs : Nat
deriving DecidableEq

/-- The global state of the dispatcher.  Tables live in `tables` and are
referred to by index; `loading_table_list` and `ready_table_queue` hold
indices.  `ready_table_queue` and `data_control_queue` are `Option` because
in `--no-data` mode the C leaves them NULL; `threads_waiting_mutex` records
whether `threads_waiting_mutex` was allocated.  `index_enqueued`,
`freed_payloads`, `data_job_queue`, `data_ended_signalled` and `trace` are
the observable effect logs of the modelled external calls. -/
structure GlobalState where
  tables : List DbTable
  loading_table_list : List Nat
  ready_table_queue : Option (List Nat)
  data_control_queue : Option (List DataControlType)
  threads_waiting_mutex : Bool
  threads_waiting : Nat
  all_jobs_are_enqueued : Bool
  control_job_ended : Bool
  tables_all_done : Nat
  index_enqueued : List Nat
  freed_payloads : List Nat
  data_job_queue : List Nat
  data_ended_signalled : Bool
  parser_seen : List Nat
  trace : List TraceEvt
deriving DecidableEq

/-- Replace table `ti` (no-op when `ti` is out of range, as `List.set`). -/
def GlobalState.setTable (s : GlobalState) (ti : Nat) (dbt : DbTable) : GlobalState :=
  { s with tables := s.tables.set ti dbt }

/-- `data_control_queue_push`: push an event, unless the queue is NULL
(`--no-data` mode), in which case the C logs and returns. -/
def data_control_queue_push (ft : DataControlType) (s : GlobalState) : GlobalState :=
  match s.data_control_queue with
  | none => s
  | some q =>
      { s with data_control_queue := some (q ++ [ft]),
               trace := s.trace ++ [.pushedControl ft] }

/-- Modelled from the spec: `enqueue_index_for_dbt_if_possible` (index
worker unit) is a non-blocking handoff of table `ti` to the IndexExecutor;
recorded in the `index_enqueued` log. -/
def enqueue_index_for_dbt_if_possible (ti : Nat) (s : GlobalState) : GlobalState :=
  { s with index_enqueued := s.index_enqueued ++ [ti] }

/-- Modelled from the spec: `refresh_table_list` is idempotent and
guarantees every table the parser has seen is in the loading table list;
modelled as installing the parser-seen list, and recorded in the trace. -/
def refresh_table_list (s : GlobalState) : GlobalState :=
  { s with loading_table_list := s.parser_seen,
           trace := s.trace ++ [.refreshTableList] }

/-- Modelled from the spec: `enqueue_indexes_if_possible` enqueues indexes
for any already-done tables; recorded in the trace and in the
`index_enqueued` log. -/
def enqueue_indexes_if_possible (s : GlobalState) : GlobalState :=
  { s with index_enqueued := s.index_enqueued ++
             (s.loading_table_list.filter fun ti =>
               ((s.tables[ti]?).map fun d => d.schema_state == .DATA_DONE).getD false),
           trace := s.trace ++ [.enqueueIndexesIfPossible] }

/-- Modelled from the spec: `data_ended` signals the end of the data
phase. -/
def data_ended (s : GlobalState) : GlobalState :=
  { s with data_ended_signalled := true, trace := s.trace ++ [.dataEnded] }

/-- Modelled from the spec: `data_job_push(DATA_JOB, rj)` delivers job `j`
to the job channel drained by the data workers. -/
def data_job_push (j : Nat) (s : GlobalState) : GlobalState :=
  { s with data_job_queue := s.data_job_queue ++ [j] }

/-- The loop body of `wake_threads_waiting`:
`while (threads_waiting>0) { push REQUEST_DATA_JOB; threads_waiting--; }`,
run with fuel `n` equal to the value of `threads_waiting` on entry. -/
def drainWaiting : Nat → GlobalState → GlobalState
  | 0, s => s
  | n + 1, s =>
      drainWaiting n { data_control_queue_push .REQUEST_DATA_JOB s with threads_waiting := n }

/-- `wake_threads_waiting`: returns at once if the waiting mutex is NULL
(`--no-data` mode); otherwise drains `threads_waiting` to 0, posting one
REQUEST_DATA_JOB per formerly parked worker. -/
def wake_threads_waiting (s : GlobalState) : GlobalState :=
  if s.threads_waiting_mutex = false then s
  else drainWaiting s.threads_waiting s

/-- `wake_data_threads`: returns at once if the waiting mutex is NULL;
otherwise posts a single WAKE_DATA_THREAD when some worker is parked, and
is a no-op when none is. -/
def wake_data_threads (s : GlobalState) : GlobalState :=
  if s.threads_waiting_mutex = false then s
  else if 0 < s.threads_waiting then data_control_queue_push .WAKE_DATA_THREAD s
  else s

/-- The readiness conjunction tested by `enqueue_table_if_ready_locked`
(lines 63-69 of the C file). -/
def table_ready_cond (dbt : DbTable) : Bool :=
  dbt.schema_state == .CREATED &&
  decide (0 < dbt.job_count) &&
  decide (dbt.current_threads < dbt.max_threads) &&
  !dbt.in_ready_queue &&
  !dbt.no_data &&
  !dbt.is_view &&
  !dbt.is_sequence

/-- `enqueue_table_if_ready_locked`: returns at once when the ready queue is
NULL (`--no-data` mode); otherwise, when all readiness conditions hold, sets
`in_ready_queue`, pushes the table onto the ready queue and calls
`wake_data_threads`. -/
def enqueue_table_if_ready_locked (ti : Nat) (s : GlobalState) : GlobalState :=
  match s.ready_table_queue with
  | none => s
  | some q =>
      match s.tables[ti]? with
      | none => s
      | some dbt =>
          if table_ready_cond dbt then
            let s1 := s.setTable ti { dbt with in_ready_queue := true }
            let s2 := { s1 with ready_table_queue := some (q ++ [ti]) }
            wake_data_threads s2
          else s

/-- Outcome of one iteration of the fast-path while loop of
`give_me_next_data_job_conf`: either continue popping, or return with a
dispatched job. -/
inductive FastOut where
  | next (s : GlobalState)
  | dispatched (s : GlobalState) (j : Option Nat)

/-- One iteration of the fast-path loop (lines 126-179), for the table
index `ti` just popped; `s.ready_table_queue` already holds the remaining
queue.  Clears `in_ready_queue`, re-validates readiness, finalizes to
DATA_DONE in the special case, otherwise dispatches the head job,
re-enqueues the table and returns. -/
def fast_body (ti : Nat) (s : GlobalState) : FastOut :=
  match s.tables[ti]? with
  | none => .next s
  | some dbt0 =>
      let dbt := { dbt0 with in_ready_queue := false }
      let s1 := s.setTable ti dbt
      if dbt.schema_state != .CREATED ||
         dbt.job_count == 0 ||
         decide (dbt.max_threads ≤ dbt.current_threads) ||
         dbt.no_data || dbt.is_view || dbt.is_sequence then
        if dbt.schema_state == .CREATED && dbt.job_count == 0 &&
           dbt.current_threads == 0 && s1.all_jobs_are_enqueued &&
           dbt.remaining_jobs == 0 then
          .next (enqueue_index_for_dbt_if_possible ti
                  (s1.setTable ti { dbt with schema_state := .DATA_DONE }))
        else
          .next s1
      else
        let j := dbt.restore_job_list.head?
        let dbt1 := { dbt with restore_job_list := dbt.restore_job_list.tail,
                               job_count := dbt.job_count - 1,
                               current_threads := dbt.current_threads + 1 }
        let s2 := enqueue_table_if_ready_locked ti (s1.setTable ti dbt1)
        .dispatched s2 j

/-- Outcome of one iteration of the fallback scan (lines 189-272): either
move to the next list element with the current `giveup` value, or break out
with a dispatched job. -/
inductive ScanOut where
  | next (s : GlobalState) (giveup : Bool)
  | brk (s : GlobalState) (giveup : Bool) (j : Option Nat)

/-- One iteration of the fallback scan over `loading_table_list` for table
index `ti`.  Skips tables in NOT_FOUND databases, tables terminal for data,
and non-CREATED tables (clearing `giveup`); on a CREATED table either
finishes a `no_data` table, defers a saturated table, dispatches the head
job, or finalizes/waits when no jobs are pending. -/
def scan_body (ti : Nat) (giveup : Bool) (s : GlobalState) : ScanOut :=
  match s.tables[ti]? with
  | none => .next s giveup
  | some dbt =>
      if dbt.db_schema_state == .NOT_FOUND then .next s giveup
      else
        let cs := dbt.schema_state
        if decide (SchemaStatus.DATA_DONE.code ≤ cs.code) ||
           (cs == .CREATED && (dbt.is_view || dbt.is_sequence)) then
          .next s giveup
        else if cs != .CREATED then
          .next s false
        else if decide (0 < dbt.job_count) then
          if dbt.no_data then
            let s1 := { s with freed_payloads := s.freed_payloads ++ dbt.restore_job_list }
            let s2 := s1.setTable ti { dbt with schema_state := .ALL_DONE }
            .next { s2 with tables_all_done := s2.tables_all_done + 1 } giveup
          else if decide (dbt.max_threads ≤ dbt.current_threads) then
            .next s false
          else
            let j := dbt.restore_job_list.head?
            let dbt1 := { dbt with restore_job_list := dbt.restore_job_list.tail,
                                   job_count := dbt.job_count - 1,
                                   current_threads := dbt.current_threads + 1 }
            let s1 := enqueue_table_if_ready_locked ti (s.setTable ti dbt1)
            .brk s1 false j
        else
          if s.all_jobs_are_enqueued && dbt.current_threads == 0 &&
             dbt.remaining_jobs == 0 then
            .next (enqueue_index_for_dbt_if_possible ti
                    (s.setTable ti { dbt with schema_state := .DATA_DONE })) giveup
          else
            .next s false

/-- The fallback scan loop; on break returns the job, otherwise falls off
the list with `job = NULL`, so the final assignment `*rj = job` yields
`none`. -/
def scan_loop : List Nat → Bool → GlobalState → GlobalState × Bool × Option Nat
  | [], giveup, s => (s, giveup, none)
  | ti :: rest, giveup, s =>
      match scan_body ti giveup s with
      | .next s1 g1 => scan_loop rest g1 s1
      | .brk s1 g1 j => (s1, g1, j)

/-- The fallback part of `give_me_next_data_job_conf`: scan the loading
table list with `giveup` initially TRUE (the fast path never clears it
before reaching here). -/
def scan_outer (s : GlobalState) : GlobalState × Bool × Option Nat :=
  scan_loop s.loading_table_list true s

/-- The fast-path while loop.  `rj0` is the content the caller's `*rj` cell
held on entry: it is carried unchanged while the loop runs and every return
path overwrites it (`*rj = job`), so it never escapes. -/
def fast_loop : List Nat → Option Nat → GlobalState → GlobalState × Bool × Option Nat
  | [], _, s => scan_outer s
  | ti :: rest, rj0, s =>
      let s0 := { s with ready_table_queue := some rest }
      match fast_body ti s0 with
      | .next s1 => fast_loop rest rj0 s1
      | .dispatched s1 j => (s1, false, j)

/-- `give_me_next_data_job_conf` (lines 116-283).  Returns the final state,
the `giveup` flag and the value written through `*rj`.  A NULL ready queue
makes `g_async_queue_try_pop` return NULL, so the scan runs directly. -/
def give_me_next_data_job_conf (s : GlobalState) (rj0 : Option Nat) :
    GlobalState × Bool × Option Nat :=
  match s.ready_table_queue with
  | none => scan_outer s
  | some q => fast_loop q rj0 s

/-- The dispatcher-loop local variables of `worker_loader_main_thread`:
the global state, the `rj` cell (initialized once, reused across
iterations) and the `cont` flag. -/
structure LoopState where
  g : GlobalState
  rj : Option Nat
  cont : Bool
deriving DecidableEq

/-- One iteration of the `worker_loader_main_thread` event loop
(lines 323-384), handling the event `ft` just popped from the control
queue.  `numThreads` is the `_num_threads` snapshot of the global worker
count. -/
def dispatcher_step (numThreads : Nat) (ft : DataControlType) (ls : LoopState) : LoopState :=
  match ft with
  | .WAKE_DATA_THREAD => { ls with g := wake_threads_waiting ls.g }
  | .REQUEST_DATA_JOB =>
      let r := give_me_next_data_job_conf ls.g ls.rj
      match r.2.2 with
      | some j => { ls with g := data_job_push j r.1, rj := some j }
      | none =>
          if r.1.all_jobs_are_enqueued && r.2.1 then
            { g := data_ended { r.1 with control_job_ended := true },
              rj := none, cont := false }
          else
            { ls with
              g := { r.1 with threads_waiting :=
                       if r.1.threads_waiting < numThreads then
                         r.1.threads_waiting + 1
                       else r.1.threads_waiting },
              rj := none }
  | .FILE_TYPE_ENDED =>
      let g1 := refresh_table_list ls.g
      let g2 := enqueue_indexes_if_possible g1
      let g3 := { g2 with all_jobs_are_enqueued := true,
                          trace := g2.trace ++ [.setAllJobsEnqueued] }
      { ls with g := data_control_queue_push .REQUEST_DATA_JOB g3 }
  | .SHUTDOWN => { ls with cont := false }
  | .FILE_TYPE_SCHEMA_ENDED => { ls with g := wake_threads_waiting ls.g }

/-- Bound invariant: no table's in-flight count exceeds its per-table cap
(spec: 0 ≤ in_flight ≤ max_parallel, with in_flight a `Nat` here so the
lower bound is inherent). -/
def CtInv (s : GlobalState) : Prop :=
  ∀ (ti : Nat) (d : DbTable), s.tables[ti]? = some d →
    d.current_threads ≤ d.max_threads

/-- Per-table DATA_DONE soundness: whenever table `ti` is in state
DATA_DONE, the parser phase is over, it has no pending jobs, none in
flight, the atomic remaining counter is zero, and its index enqueue has
been invoked. -/
def DdOKt (ti : Nat) (s : GlobalState) : Prop :=
  ∀ d, s.tables[ti]? = some d → d.schema_state = .DATA_DONE →
    s.all_jobs_are_enqueued = true ∧ d.job_count = 0 ∧ d.current_threads = 0 ∧
    d.remaining_jobs = 0 ∧ ti ∈ s.index_enqueued

/-- A table the fallback scan passes over without touching and without
clearing `giveup`: its database failed schema creation, or it is terminal
for data (at least DATA_DONE, or a CREATED view or sequence). -/
def ScanSkip (d : DbTable) : Prop :=
  d.db_schema_state = .NOT_FOUND ∨
  SchemaStatus.DATA_DONE.code ≤ d.schema_state.code ∨
  (d.schema_state = .CREATED ∧ (d.is_view = true ∨ d.is_sequence = true))

/-- A base table, fully created, with two pending jobs and spare
parallelism; used as a concrete input for several witnesses. -/
def sampleReady : DbTable :=
  { schema_state := .CREATED, db_schema_state := .CREATED,
    is_view := false, is_sequence := false, no_data := false,
    job_count := 2, restore_job_list := [10, 11],
    current_threads := 0, max_threads := 4,
    in_ready_queue := false, remaining_jobs := 2 }

/-- A fully initialized global state holding the single table
`sampleReady`, with one parked worker. -/
def sampleState : GlobalState :=
  { tables := [sampleReady], loading_table_list := [0],
    ready_table_queue := some [], data_control_queue := some [],
    threads_waiting_mutex := true, threads_waiting := 1,
    all_jobs_are_enqueued := false, control_job_ended := false,
    tables_all_done := 0, index_enqueued := [], freed_payloads := [],
    data_job_queue := [], data_ended_signalled := false,
    parser_seen := [0], trace := [] }

/-- A state whose only table is CREATED with no pending jobs, none in
flight and a zero remaining counter, already sitting in the ready queue,
after the parser has finished: popping it finalizes it to DATA_DONE. -/
def finalizeState : GlobalState :=
  { sampleState with
      tables := [{ sampleReady with job_count := 0, restore_job_list := [],
                                     remaining_jobs := 0, in_ready_queue := true }],
      ready_table_queue := some [0],
      all_jobs_are_enqueued := true }

/-- A state whose only table is CREATED, opted out of data (`no_data`),
and still carries two pending jobs: the fallback scan sends it straight to
ALL_DONE. -/
def noDataState : GlobalState :=
  { sampleState with
      tables := [{ sampleReady with no_data := true }] }

/-- A state with two parked workers and an empty control queue, fed a
WAKE_DATA_THREAD event. -/
def twoParked : LoopState :=
  { g := { sampleState with threads_waiting := 2,
                            tables := [], loading_table_list := [],
                            parser_seen := [] },
    rj := none, cont := true }

/-- A state whose only table is eligible for the ready queue except that it
is already in it. -/
def alreadyQueuedState : GlobalState :=
  { sampleState with
      tables := [{ sampleReady with in_ready_queue := true }],
      ready_table_queue := some [0] }

/-- A dispatcher loop state over an empty registry: a REQUEST_DATA_JOB
finds nothing and the worker parks. -/
def emptyLoop : LoopState :=
  { g := { sampleState with tables := [], loading_table_list := [],
                            parser_seen := [], threads_waiting := 0 },
    rj := none, cont := true }

/-- A state in which every listed table is either in a NOT_FOUND database
or terminal for data, with the parser finished: the dispatcher must give
up and terminate. -/
def drainedLoop : LoopState :=
  { g := { sampleState with
             tables := [{ sampleReady with db_schema_state := .NOT_FOUND },
                        { sampleReady with schema_state := .ALL_DONE,
                                           job_count := 0, restore_job_list := [] }],
             loading_table_list := [0, 1],
             parser_seen := [0, 1],
             all_jobs_are_enqueued := true,
             threads_waiting := 0 },
    rj := none, cont := true }

/-- The table of `finalizeState` as it stands after the dispatcher
finalizes it. -/
def finalizedTable : DbTable :=
  { sampleReady with
    job_count := 0, restore_job_list := [], remaining_jobs := 0,
    in_ready_queue := false, schema_state := .DATA_DONE }

/-- The table of `alreadyQueuedState` after one job is dispatched from it
and it is re-enqueued. -/
def dispatchedTable : DbTable :=
  { sampleReady with
    job_count := 1, restore_job_list := [11], current_threads := 1,
    in_ready_queue := true }

/-- The table of `noDataState` after the fallback scan handles its
`no_data` flag. -/
def noDataDoneTable : DbTable :=
  { sampleReady with no_data := true, schema_state := .ALL_DONE }

/-! Helper lemmas: list access through `List.set`, and frame lemmas for the
primitive state transformers. -/

theorem getElem_set_of_some {l : List DbTable} {i : Nat} {a b : DbTable}
    (h : l[i]? = some b) : (l.set i a)[i]? = some a := by
  rcases List.getElem?_eq_some_iff.mp h with ⟨hl, _⟩
  exact List.getElem?_set_eq_of_lt a hl

theorem getElem_set_other {l : List DbTable} {i j : Nat} (a : DbTable)
    (h : i ≠ j) : (l.set i a)[j]? = l[j]? :=
  List.getElem?_set_ne h

theorem push_tables (ft : DataControlType) (s : GlobalState) :
    (data_control_queue_push ft s).tables = s.tables := by
  unfold data_control_queue_push
  cases s.data_control_queue <;> rfl

theorem push_all_jobs (ft : DataControlType) (s : GlobalState) :
    (data_control_queue_push ft s).all_jobs_are_enqueued = s.all_jobs_are_enqueued := by
  unfold data_control_queue_push
  cases s.data_control_queue <;> rfl

theorem push_index (ft : DataControlType) (s : GlobalState) :
    (data_control_queue_push ft s).index_enqueued = s.index_enqueued := by
  unfold data_control_queue_push
  cases s.data_control_queue <;> rfl

theorem push_waiting (ft : DataControlType) (s : GlobalState) :
    (data_control_queue_push ft s).threads_waiting = s.threads_waiting := by
  unfold data_control_queue_push
  cases s.data_control_queue <;> rfl

theorem wake_data_tables (s : GlobalState) :
    (wake_data_threads s).tables = s.tables := by
  unfold wake_data_threads
  split
  · rfl
  · split
    · exact push_tables _ _
    · rfl

theorem wake_data_all_jobs (s : GlobalState) :
    (wake_data_threads s).all_jobs_are_enqueued = s.all_jobs_are_enqueued := by
  unfold wake_data_threads
  split
  · rfl
  · split
    · exact push_all_jobs _ _
    · rfl

theorem wake_data_index (s : GlobalState) :
    (wake_data_threads s).index_enqueued = s.index_enqueued := by
  unfold wake_data_threads
  split
  · rfl
  · split
    · exact push_index _ _
    · rfl

theorem push_rtq (ft : DataControlType) (s : GlobalState) :
    (data_control_queue_push ft s).ready_table_queue = s.ready_table_queue := by
  unfold data_control_queue_push
  cases s.data_control_queue <;> rfl

theorem wake_data_rtq (s : GlobalState) :
    (wake_data_threads s).ready_table_queue = s.ready_table_queue := by
  unfold wake_data_threads
  split
  · rfl
  · split
    · exact push_rtq _ _
    · rfl

theorem wake_data_dcq (cq : List DataControlType) (s : GlobalState)
    (hm : s.threads_waiting_mutex = true)
    (hc : s.data_control_queue = some cq) :
    (wake_data_threads s).data_control_queue =
      some (if 0 < s.threads_waiting then
        cq ++ [DataControlType.WAKE_DATA_THREAD] else cq) := by
  unfold wake_data_threads
  rw [hm]
  simp only [Bool.true_eq_false, if_false]
  by_cases h0 : 0 < s.threads_waiting
  · simp only [h0, if_true]
    simp only [data_control_queue_push, hc]
  · simp only [h0, if_false]
    exact hc

theorem enqueue_tables_spec (ti : Nat) (s : GlobalState) :
    (enqueue_table_if_ready_locked ti s).tables = s.tables ∨
    (∃ d, s.tables[ti]? = some d ∧ table_ready_cond d = true ∧
      (enqueue_table_if_ready_locked ti s).tables =
        s.tables.set ti { d with in_ready_queue := true }) := by
  rcases hq : s.ready_table_queue with _ | q
  · left
    simp [enqueue_table_if_ready_locked, hq]
  · rcases hd : s.tables[ti]? with _ | d
    · left
      simp [enqueue_table_if_ready_locked, hq, hd]
    · by_cases hc : table_ready_cond d = true
      · refine Or.inr ⟨d, rfl, hc, ?_⟩
        simp [enqueue_table_if_ready_locked, hq, hd, hc, wake_data_tables,
              GlobalState.setTable]
      · left
        simp [enqueue_table_if_ready_locked, hq, hd, hc]

theorem enqueue_all_jobs (ti : Nat) (s : GlobalState) :
    (enqueue_table_if_ready_locked ti s).all_jobs_are_enqueued =
      s.all_jobs_are_enqueued := by
  rcases hq : s.ready_table_queue with _ | q
  · simp [enqueue_table_if_ready_locked, hq]
  · rcases hd : s.tables[ti]? with _ | d
    · simp [enqueue_table_if_ready_locked, hq, hd]
    · by_cases hc : table_ready_cond d = true
      · simp [enqueue_table_if_ready_locked, hq, hd, hc, wake_data_all_jobs,
              GlobalState.setTable]
      · simp [enqueue_table_if_ready_locked, hq, hd, hc]

theorem enqueue_index (ti : Nat) (s : GlobalState) :
    (enqueue_table_if_ready_locked ti s).index_enqueued = s.index_enqueued := by
  rcases hq : s.ready_table_queue with _ | q
  · simp [enqueue_table_if_ready_locked, hq]
  · rcases hd : s.tables[ti]? with _ | d
    · simp [enqueue_table_if_ready_locked, hq, hd]
    · by_cases hc : table_ready_cond d = true
      · simp [enqueue_table_if_ready_locked, hq, hd, hc, wake_data_index,
              GlobalState.setTable]
      · simp [enqueue_table_if_ready_locked, hq, hd, hc]

@[simp] theorem setTable_tables (s : GlobalState) (ti : Nat) (d : DbTable) :
    (s.setTable ti d).tables = s.tables.set ti d := rfl

@[simp] theorem setTable_all_jobs (s : GlobalState) (ti : Nat) (d : DbTable) :
    (s.setTable ti d).all_jobs_are_enqueued = s.all_jobs_are_enqueued := rfl

@[simp] theorem setTable_index (s : GlobalState) (ti : Nat) (d : DbTable) :
    (s.setTable ti d).index_enqueued = s.index_enqueued := rfl

@[simp] theorem eifd_tables (ti : Nat) (s : GlobalState) :
    (enqueue_index_for_dbt_if_possible ti s).tables = s.tables := rfl

@[simp] theorem eifd_all_jobs (ti : Nat) (s : GlobalState) :
    (enqueue_index_for_dbt_if_possible ti s).all_jobs_are_enqueued =
      s.all_jobs_are_enqueued := rfl

@[simp] theorem eifd_index (ti : Nat) (s : GlobalState) :
    (enqueue_index_for_dbt_if_possible ti s).index_enqueued =
      s.index_enqueued ++ [ti] := rfl

theorem CtInv_mono {s s' : GlobalState} (ht : s'.tables = s.tables)
    (h : CtInv s) : CtInv s' := by
  intro tj d hd
  rw [ht] at hd
  exact h tj d hd

theorem CtInv_set {ti : Nat} {s : GlobalState} {d : DbTable}
    (h : CtInv s) (hd : d.current_threads ≤ d.max_threads) :
    CtInv (s.setTable ti d) := by
  intro tj d' hd'
  rw [setTable_tables, List.getElem?_set] at hd'
  split at hd'
  · split at hd'
    · cases hd'
      exact hd
    · cases hd'
  · exact h tj d' hd'

theorem CtInv_enqueue (ti : Nat) {s : GlobalState}
    (h : CtInv s) : CtInv (enqueue_table_if_ready_locked ti s) := by
  rcases enqueue_tables_spec ti s with ht | ⟨d, hd, _, ht⟩
  · exact CtInv_mono ht h
  · intro tj d' hd'
    rw [ht, List.getElem?_set] at hd'
    split at hd'
    · rename_i hij
      subst hij
      split at hd'
      · cases hd'
        exact h ti d hd
      · cases hd'
    · exact h tj d' hd'

theorem DdOKt_mono {tj : Nat} {s s' : GlobalState} (ht : s'.tables = s.tables)
    (ha : s'.all_jobs_are_enqueued = s.all_jobs_are_enqueued)
    (hi : ∀ x, x ∈ s.index_enqueued → x ∈ s'.index_enqueued)
    (h : DdOKt tj s) : DdOKt tj s' := by
  intro d hd hss
  rw [ht] at hd
  rcases h d hd hss with ⟨h1, h2, h3, h4, h5⟩
  exact ⟨by rw [ha, h1], h2, h3, h4, hi _ h5⟩

theorem DdOKt_set {tj ti : Nat} {s : GlobalState} {d : DbTable}
    (h : DdOKt tj s)
    (hd : ti = tj → d.schema_state = .DATA_DONE →
      s.all_jobs_are_enqueued = true ∧ d.job_count = 0 ∧ d.current_threads = 0 ∧
      d.remaining_jobs = 0 ∧ tj ∈ s.index_enqueued) :
    DdOKt tj (s.setTable ti d) := by
  intro d' hd' hss
  rw [setTable_tables, List.getElem?_set] at hd'
  split at hd'
  · rename_i hij
    split at hd'
    · cases hd'
      exact hd hij hss
    · cases hd'
  · exact h d' hd' hss

theorem DdOKt_enqueue {tj : Nat} (ti : Nat) {s : GlobalState}
    (h : DdOKt tj s) : DdOKt tj (enqueue_table_if_ready_locked ti s) := by
  have ha := enqueue_all_jobs ti s
  have hi := enqueue_index ti s
  rcases enqueue_tables_spec ti s with ht | ⟨d, hd, _, ht⟩
  · exact DdOKt_mono ht ha (fun x hx => by rw [hi]; exact hx) h
  · intro d' hd' hss
    rw [ht, List.getElem?_set] at hd'
    split at hd'
    · rename_i hij
      subst hij
      split at hd'
      · cases hd'
        rcases h d hd hss with ⟨h1, h2, h3, h4, h5⟩
        exact ⟨by rw [ha, h1], h2, h3, h4, by rw [hi]; exact h5⟩
      · cases hd'
    · rcases h d' hd' hss with ⟨h1, h2, h3, h4, h5⟩
      exact ⟨by rw [ha, h1], h2, h3, h4, by rw [hi]; exact h5⟩

theorem fast_body_ct (ti : Nat) (s : GlobalState) (h : CtInv s) :
    (∀ s1, fast_body ti s = .next s1 → CtInv s1) ∧
    (∀ s1 j, fast_body ti s = .dispatched s1 j → CtInv s1) := by
  rcases hd : s.tables[ti]? with _ | d0
  · constructor
    · intro s1 he
      simp only [fast_body, hd] at he
      cases he
      exact h
    · intro s1 j he
      simp only [fast_body, hd] at he
      cases he
  · have hb : d0.current_threads ≤ d0.max_threads := h ti d0 hd
    constructor
    · intro s1 he
      simp only [fast_body, hd] at he
      split at he
      · split at he
        · cases he
          exact CtInv_mono (eifd_tables _ _) (CtInv_set (CtInv_set h hb) hb)
        · cases he
          exact CtInv_set h hb
      · cases he
    · intro s1 j he
      simp only [fast_body, hd] at he
      split at he
      · split at he <;> cases he
      · rename_i hre
        cases he
        refine CtInv_enqueue ti ?_
        refine CtInv_set (CtInv_set h hb) ?_
        show d0.current_threads + 1 ≤ d0.max_threads
        simp only [Bool.or_eq_true, decide_eq_true_eq, not_or, Bool.not_eq_true] at hre
        omega

theorem DdOKt_finalize {tj ti : Nat} {s : GlobalState} {d : DbTable}
    (h : DdOKt tj s) (hd : s.tables[ti]? = some d)
    (hja : s.all_jobs_are_enqueued = true) (hjc : d.job_count = 0)
    (hct : d.current_threads = 0) (hrem : d.remaining_jobs = 0) :
    DdOKt tj (enqueue_index_for_dbt_if_possible ti
      (s.setTable ti { d with schema_state := .DATA_DONE })) := by
  intro d' hd' hss
  have htab : (enqueue_index_for_dbt_if_possible ti
      (s.setTable ti { d with schema_state := .DATA_DONE })).tables =
      s.tables.set ti { d with schema_state := .DATA_DONE } := rfl
  rw [htab, List.getElem?_set] at hd'
  split at hd'
  · rename_i hij
    split at hd'
    · cases hd'
      refine ⟨hja, hjc, hct, hrem, ?_⟩
      rw [eifd_index]
      subst hij
      exact List.mem_append_right _ (List.mem_singleton.mpr rfl)
    · cases hd'
  · rcases h d' hd' hss with ⟨h1, h2, h3, h4, h5⟩
    refine ⟨h1, h2, h3, h4, ?_⟩
    rw [eifd_index]
    exact List.mem_append_left _ h5

theorem fast_body_dd {tj : Nat} (ti : Nat) (s : GlobalState) (h : DdOKt tj s) :
    (∀ s1, fast_body ti s = .next s1 → DdOKt tj s1) ∧
    (∀ s1 j, fast_body ti s = .dispatched s1 j → DdOKt tj s1) := by
  rcases hd : s.tables[ti]? with _ | d0
  · constructor
    · intro s1 he
      simp only [fast_body, hd] at he
      cases he
      exact h
    · intro s1 j he
      simp only [fast_body, hd] at he
      cases he
  · have hkeep : DdOKt tj (s.setTable ti { d0 with in_ready_queue := false }) := by
      refine DdOKt_set h ?_
      intro hij hss
      subst hij
      exact h d0 hd hss
    constructor
    · intro s1 he
      simp only [fast_body, hd] at he
      split at he
      · split at he
        · rename_i hfin
          cases he
          simp only [Bool.and_eq_true, beq_iff_eq, setTable_all_jobs] at hfin
          exact DdOKt_finalize hkeep (getElem_set_of_some hd)
            hfin.1.2 hfin.1.1.1.2 hfin.1.1.2 hfin.2
        · cases he
          exact hkeep
      · cases he
    · intro s1 j he
      simp only [fast_body, hd] at he
      split at he
      · split at he <;> cases he
      · rename_i hre
        cases he
        refine DdOKt_enqueue ti ?_
        refine DdOKt_set hkeep ?_
        intro _ hss
        simp only [Bool.or_eq_true, bne_iff_ne, not_or, Bool.not_eq_true] at hre
        have hss' : d0.schema_state = .DATA_DONE := hss
        have hcr : d0.schema_state = .CREATED := by simpa using hre.1.1.1.1.1
        rw [hcr] at hss'
        cases hss'

theorem scan_body_ct (ti : Nat) (g : Bool) (s : GlobalState) (h : CtInv s) :
    (∀ s1 g1, scan_body ti g s = .next s1 g1 → CtInv s1) ∧
    (∀ s1 g1 j, scan_body ti g s = .brk s1 g1 j → CtInv s1) := by
  rcases hd : s.tables[ti]? with _ | d
  · constructor
    · intro s1 g1 he
      simp only [scan_body, hd] at he
      cases he
      exact h
    · intro s1 g1 j he
      simp only [scan_body, hd] at he
      cases he
  · have hb : d.current_threads ≤ d.max_threads := h ti d hd
    constructor
    · intro s1 g1 he
      simp only [scan_body, hd] at he
      split at he
      · cases he
        exact h
      · split at he
        · cases he
          exact h
        · split at he
          · cases he
            exact h
          · split at he
            · split at he
              · cases he
                exact CtInv_mono rfl (CtInv_set (CtInv_mono rfl h) hb)
              · split at he
                · cases he
                  exact h
                · cases he
            · split at he
              · cases he
                exact CtInv_mono (eifd_tables _ _) (CtInv_set h hb)
              · cases he
                exact h
    · intro s1 g1 j he
      simp only [scan_body, hd] at he
      split at he
      · cases he
      · split at he
        · cases he
        · split at he
          · cases he
          · split at he
            · split at he
              · cases he
              · split at he
                · rename_i hsat
                  cases he
                · rename_i hsat
                  cases he
                  refine CtInv_enqueue ti ?_
                  refine CtInv_set h ?_
                  show d.current_threads + 1 ≤ d.max_threads
                  simp only [decide_eq_true_eq] at hsat
                  omega
            · split at he <;> cases he

theorem scan_body_dd {tj : Nat} (ti : Nat) (g : Bool) (s : GlobalState) (h : DdOKt tj s) :
    (∀ s1 g1, scan_body ti g s = .next s1 g1 → DdOKt tj s1) ∧
    (∀ s1 g1 j, scan_body ti g s = .brk s1 g1 j → DdOKt tj s1) := by
  rcases hd : s.tables[ti]? with _ | d
  · constructor
    · intro s1 g1 he
      simp only [scan_body, hd] at he
      cases he
      exact h
    · intro s1 g1 j he
      simp only [scan_body, hd] at he
      cases he
  · constructor
    · intro s1 g1 he
      simp only [scan_body, hd] at he
      split at he
      · cases he
        exact h
      · split at he
        · cases he
          exact h
        · split at he
          · cases he
            exact h
          · split at he
            · split at he
              · cases he
                refine DdOKt_mono rfl rfl (fun x hx => hx) ?_
                refine DdOKt_set (DdOKt_mono rfl rfl (fun x hx => hx) h) ?_
                intro _ hss
                have hss' : SchemaStatus.ALL_DONE = SchemaStatus.DATA_DONE := hss
                cases hss'
              · split at he
                · cases he
                  exact h
                · cases he
            · split at he
              · rename_i hfin
                cases he
                rename_i hjc0
                simp only [Bool.and_eq_true, beq_iff_eq] at hfin
                refine DdOKt_finalize h hd hfin.1.1 ?_ hfin.1.2 hfin.2
                simp only [decide_eq_true_eq, Nat.not_lt, Nat.le_zero] at hjc0
                exact hjc0
              · cases he
                exact h
    · intro s1 g1 j he
      simp only [scan_body, hd] at he
      split at he
      · cases he
      · split at he
        · cases he
        · split at he
          · cases he
          · split at he
            · split at he
              · cases he
              · split at he
                · cases he
                · rename_i hcr _ _ _
                  cases he
                  refine DdOKt_enqueue ti ?_
                  refine DdOKt_set h ?_
                  intro _ hss
                  have hss' : d.schema_state = .DATA_DONE := hss
                  simp only [bne_iff_ne, ne_eq, Decidable.not_not] at hcr
                  rw [hcr] at hss'
                  cases hss'
            · split at he <;> cases he

theorem scan_loop_ct (l : List Nat) : ∀ (g : Bool) (s : GlobalState),
    CtInv s → CtInv (scan_loop l g s).1 := by
  induction l with
  | nil =>
      intro g s h
      exact h
  | cons ti rest ih =>
      intro g s h
      rcases hb : scan_body ti g s with ⟨s1, g1⟩ | ⟨s1, g1, j⟩
      · simp only [scan_loop, hb]
        exact ih g1 s1 ((scan_body_ct ti g s h).1 s1 g1 hb)
      · simp only [scan_loop, hb]
        exact (scan_body_ct ti g s h).2 s1 g1 j hb

theorem fast_loop_ct (q : List Nat) : ∀ (rj0 : Option Nat) (s : GlobalState),
    CtInv s → CtInv (fast_loop q rj0 s).1 := by
  induction q with
  | nil =>
      intro rj0 s h
      simp only [fast_loop, scan_outer]
      exact scan_loop_ct _ true s h
  | cons ti rest ih =>
      intro rj0 s h
      have h0 : CtInv { s with ready_table_queue := some rest } := h
      rcases hb : fast_body ti { s with ready_table_queue := some rest } with s1 | ⟨s1, j⟩
      · simp only [fast_loop, hb]
        exact ih rj0 s1 ((fast_body_ct ti _ h0).1 s1 hb)
      · simp only [fast_loop, hb]
        exact (fast_body_ct ti _ h0).2 s1 j hb

theorem give_me_ct (s : GlobalState) (rj0 : Option Nat) (h : CtInv s) :
    CtInv (give_me_next_data_job_conf s rj0).1 := by
  rcases hq : s.ready_table_queue with _ | q
  · simp only [give_me_next_data_job_conf, hq, scan_outer]
    exact scan_loop_ct _ true s h
  · simp only [give_me_next_data_job_conf, hq]
    exact fast_loop_ct q rj0 s h

theorem scan_loop_dd {tj : Nat} (l : List Nat) : ∀ (g : Bool) (s : GlobalState),
    DdOKt tj s → DdOKt tj (scan_loop l g s).1 := by
  induction l with
  | nil =>
      intro g s h
      exact h
  | cons ti rest ih =>
      intro g s h
      rcases hb : scan_body ti g s with ⟨s1, g1⟩ | ⟨s1, g1, j⟩
      · simp only [scan_loop, hb]
        exact ih g1 s1 ((scan_body_dd ti g s h).1 s1 g1 hb)
      · simp only [scan_loop, hb]
        exact (scan_body_dd ti g s h).2 s1 g1 j hb

theorem fast_loop_dd {tj : Nat} (q : List Nat) : ∀ (rj0 : Option Nat) (s : GlobalState),
    DdOKt tj s → DdOKt tj (fast_loop q rj0 s).1 := by
  induction q with
  | nil =>
      intro rj0 s h
      simp only [fast_loop, scan_outer]
      exact scan_loop_dd _ true s h
  | cons ti rest ih =>
      intro rj0 s h
      have h0 : DdOKt tj { s with ready_table_queue := some rest } := h
      rcases hb : fast_body ti { s with ready_table_queue := some rest } with s1 | ⟨s1, j⟩
      · simp only [fast_loop, hb]
        exact ih rj0 s1 ((fast_body_dd ti _ h0).1 s1 hb)
      · simp only [fast_loop, hb]
        exact (fast_body_dd ti _ h0).2 s1 j hb

theorem give_me_dd {tj : Nat} (s : GlobalState) (rj0 : Option Nat) (h : DdOKt tj s) :
    DdOKt tj (give_me_next_data_job_conf s rj0).1 := by
  rcases hq : s.ready_table_queue with _ | q
  · simp only [give_me_next_data_job_conf, hq, scan_outer]
    exact scan_loop_dd _ true s h
  · simp only [give_me_next_data_job_conf, hq]
    exact fast_loop_dd q rj0 s h

theorem fast_body_aj (ti : Nat) (s : GlobalState) :
    (∀ s1, fast_body ti s = .next s1 →
      s1.all_jobs_are_enqueued = s.all_jobs_are_enqueued) ∧
    (∀ s1 j, fast_body ti s = .dispatched s1 j →
      s1.all_jobs_are_enqueued = s.all_jobs_are_enqueued) := by
  rcases hd : s.tables[ti]? with _ | d
  · constructor
    · intro s1 he
      simp only [fast_body, hd] at he
      cases he
      rfl
    · intro s1 j he
      simp only [fast_body, hd] at he
      cases he
  · constructor
    · intro s1 he
      simp only [fast_body, hd] at he
      split at he
      · split at he
        · cases he
          rfl
        · cases he
          rfl
      · cases he
    · intro s1 j he
      simp only [fast_body, hd] at he
      split at he
      · split at he <;> cases he
      · cases he
        rw [enqueue_all_jobs]
        rfl

theorem scan_body_aj (ti : Nat) (g : Bool) (s : GlobalState) :
    (∀ s1 g1, scan_body ti g s = .next s1 g1 →
      s1.all_jobs_are_enqueued = s.all_jobs_are_enqueued) ∧
    (∀ s1 g1 j, scan_body ti g s = .brk s1 g1 j →
      s1.all_jobs_are_enqueued = s.all_jobs_are_enqueued) := by
  rcases hd : s.tables[ti]? with _ | d
  · constructor
    · intro s1 g1 he
      simp only [scan_body, hd] at he
      cases he
      rfl
    · intro s1 g1 j he
      simp only [scan_body, hd] at he
      cases he
  · constructor
    · intro s1 g1 he
      simp only [scan_body, hd] at he
      split at he
      · cases he
        rfl
      · split at he
        · cases he
          rfl
        · split at he
          · cases he
            rfl
          · split at he
            · split at he
              · cases he
                rfl
              · split at he
                · cases he
                  rfl
                · cases he
            · split at he
              · cases he
                rfl
              · cases he
                rfl
    · intro s1 g1 j he
      simp only [scan_body, hd] at he
      split at he
      · cases he
      · split at he
        · cases he
        · split at he
          · cases he
          · split at he
            · split at he
              · cases he
              · split at he
                · cases he
                · cases he
                  rw [enqueue_all_jobs]
                  rfl
            · split at he <;> cases he

theorem scan_loop_aj (l : List Nat) : ∀ (g : Bool) (s : GlobalState),
    (scan_loop l g s).1.all_jobs_are_enqueued = s.all_jobs_are_enqueued := by
  induction l with
  | nil =>
      intro g s
      rfl
  | cons ti rest ih =>
      intro g s
      rcases hb : scan_body ti g s with ⟨s1, g1⟩ | ⟨s1, g1, j⟩
      · simp only [scan_loop, hb]
        rw [ih g1 s1, (scan_body_aj ti g s).1 s1 g1 hb]
      · simp only [scan_loop, hb]
        exact (scan_body_aj ti g s).2 s1 g1 j hb

theorem fast_loop_aj (q : List Nat) : ∀ (rj0 : Option Nat) (s : GlobalState),
    (fast_loop q rj0 s).1.all_jobs_are_enqueued = s.all_jobs_are_enqueued := by
  induction q with
  | nil =>
      intro rj0 s
      simp only [fast_loop, scan_outer]
      exact scan_loop_aj _ true s
  | cons ti rest ih =>
      intro rj0 s
      rcases hb : fast_body ti { s with ready_table_queue := some rest } with s1 | ⟨s1, j⟩
      · simp only [fast_loop, hb]
        rw [ih rj0 s1,
           (fast_body_aj ti { s with ready_table_queue := some rest }).1 s1 hb]
      · simp only [fast_loop, hb]
        exact (fast_body_aj ti { s with ready_table_queue := some rest }).2 s1 j hb

theorem give_me_aj (s : GlobalState) (rj0 : Option Nat) :
    (give_me_next_data_job_conf s rj0).1.all_jobs_are_enqueued =
      s.all_jobs_are_enqueued := by
  rcases hq : s.ready_table_queue with _ | q
  · simp only [give_me_next_data_job_conf, hq, scan_outer]
    exact scan_loop_aj _ true s
  · simp only [give_me_next_data_job_conf, hq]
    exact fast_loop_aj q rj0 s

theorem scan_body_skip {ti : Nat} {s : GlobalState} {d : DbTable} (g : Bool)
    (hd : s.tables[ti]? = some d) (hs : ScanSkip d) :
    scan_body ti g s = .next s g := by
  by_cases hnf : (d.db_schema_state == SchemaStatus.NOT_FOUND) = true
  · simp only [scan_body, hd, hnf, if_true]
  · rcases hs with hs | hs | ⟨hs1, hs2⟩
    · exact absurd (beq_iff_eq.mpr hs) hnf
    · simp only [scan_body, hd, hnf, Bool.false_eq_true, if_false,
                 decide_eq_true_eq]
      rw [if_pos]
      simp only [Bool.or_eq_true, decide_eq_true_eq]
      exact Or.inl hs
    · simp only [scan_body, hd, hnf, Bool.false_eq_true, if_false]
      rw [if_pos]
      simp only [Bool.or_eq_true, decide_eq_true_eq, Bool.and_eq_true, beq_iff_eq]
      right
      constructor
      · exact hs1
      · rcases hs2 with hs2 | hs2
        · rw [hs2]
          simp
        · rw [hs2]
          simp

theorem scan_loop_skip (l : List Nat) (g : Bool) (s : GlobalState)
    (h : ∀ ti, ti ∈ l → ∃ d, s.tables[ti]? = some d ∧ ScanSkip d) :
    scan_loop l g s = (s, g, none) := by
  induction l with
  | nil => rfl
  | cons ti rest ih =>
      rcases h ti (List.mem_cons_self ti rest) with ⟨d, hd, hs⟩
      simp only [scan_loop, scan_body_skip g hd hs]
      exact ih (fun x hx => h x (List.mem_cons_of_mem ti hx))

theorem fast_loop_rj_indep (q : List Nat) : ∀ (a b : Option Nat) (s : GlobalState),
    fast_loop q a s = fast_loop q b s := by
  induction q with
  | nil =>
      intro a b s
      rfl
  | cons ti rest ih =>
      intro a b s
      rcases hb : fast_body ti { s with ready_table_queue := some rest } with s1 | ⟨s1, j⟩
      · simp only [fast_loop, hb]
        exact ih a b s1
      · simp only [fast_loop, hb]

theorem drain_queue (n : Nat) : ∀ (s : GlobalState) (cq : List DataControlType),
    s.data_control_queue = some cq →
    (drainWaiting n s).data_control_queue =
      some (cq ++ List.replicate n DataControlType.REQUEST_DATA_JOB) := by
  induction n with
  | zero =>
      intro s cq hc
      simpa using hc
  | succ m ih =>
      intro s cq hc
      have hc1 : ({ data_control_queue_push .REQUEST_DATA_JOB s with
          threads_waiting := m } : GlobalState).data_control_queue =
          some (cq ++ [DataControlType.REQUEST_DATA_JOB]) := by
        show (data_control_queue_push .REQUEST_DATA_JOB s).data_control_queue =
          some (cq ++ [DataControlType.REQUEST_DATA_JOB])
        simp only [data_control_queue_push, hc]
      rw [drainWaiting, ih _ _ hc1]
      simp [List.replicate_succ, List.append_assoc]

theorem drain_waiting_zero (n : Nat) : ∀ (s : GlobalState),
    (drainWaiting n s).threads_waiting = if n = 0 then s.threads_waiting else 0 := by
  induction n with
  | zero =>
      intro s
      rfl
  | succ m ih =>
      intro s
      rw [drainWaiting, ih]
      rcases m with _ | m
      · simp
      · simp

/-! The claim theorems. -/

/-- C1: for every REQUEST_DATA_JOB event received by the dispatcher loop,
the loop calls `give_me_next_data_job_conf`; if a job is produced it is
pushed onto the job channel; otherwise, if `all_jobs_are_enqueued` and the
returned `giveup` flag are both true, the loop sets `control_job_ended`,
signals the data-phase end, and exits; otherwise it increments the
parked-worker counter `threads_waiting`, capped at the worker count. -/
theorem C1_request_data_job_handling (numThreads : Nat) (ls : LoopState)
    (g1 : GlobalState) (gv : Bool) (orj : Option Nat)
    (h : give_me_next_data_job_conf ls.g ls.rj = (g1, gv, orj)) :
    (∀ j, orj = some j →
      dispatcher_step numThreads .REQUEST_DATA_JOB ls =
        { g := data_job_push j g1, rj := some j, cont := ls.cont }) ∧
    (orj = none → (g1.all_jobs_are_enqueued && gv) = true →
      dispatcher_step numThreads .REQUEST_DATA_JOB ls =
        { g := data_ended { g1 with control_job_ended := true },
          rj := none, cont := false }) ∧
    (orj = none → (g1.all_jobs_are_enqueued && gv) = false →
      dispatcher_step numThreads .REQUEST_DATA_JOB ls =
        { g := { g1 with threads_waiting :=
                   if g1.threads_waiting < numThreads then g1.threads_waiting + 1
                   else g1.threads_waiting },
          rj := none, cont := ls.cont } ∧
      (g1.threads_waiting ≤ numThreads →
        (dispatcher_step numThreads .REQUEST_DATA_JOB ls).g.threads_waiting ≤
          numThreads)) := by
  refine ⟨?_, ?_, ?_⟩
  · intro j hj
    subst hj
    simp only [dispatcher_step, h]
  · intro hn hg
    subst hn
    simp only [dispatcher_step, h, hg, if_true]
  · intro hn hg
    subst hn
    constructor
    · simp only [dispatcher_step, h, hg, Bool.false_eq_true, if_false]
    · intro hcap
      simp only [dispatcher_step, h, hg, Bool.false_eq_true, if_false]
      split
      · omega
      · exact hcap

/-- Witness for C1: on an empty registry with no parked worker, the
REQUEST_DATA_JOB handler parks the requester. -/
theorem C1_request_data_job_handling_witness :
    dispatcher_step 4 .REQUEST_DATA_JOB emptyLoop =
      { g := { emptyLoop.g with threads_waiting := 1 }, rj := none,
        cont := true } ∧
    (dispatcher_step 4 .REQUEST_DATA_JOB emptyLoop).g.threads_waiting ≤ 4 := by
  have h := (C1_request_data_job_handling 4 emptyLoop emptyLoop.g true none
    rfl).2.2 rfl rfl
  constructor
  · have h1 := h.1
    simpa using h1
  · exact h.2 (by decide)

/-- C2: `enqueue_table_if_ready_locked` pushes a table onto the ready queue
iff schema_state = CREATED, job_count > 0, current_threads < max_threads,
it is not already queued, no_data is off and it is neither a view nor a
sequence; on success it sets `in_ready_queue` and wakes a parked data
worker, posting WAKE_DATA_THREAD only when `threads_waiting` > 0. -/
theorem C2_enqueue_table_if_ready_iff (s : GlobalState) (ti : Nat)
    (q : List Nat) (cq : List DataControlType) (d : DbTable)
    (hq : s.ready_table_queue = some q) (hd : s.tables[ti]? = some d)
    (hm : s.threads_waiting_mutex = true)
    (hc : s.data_control_queue = some cq) :
    ((d.schema_state == SchemaStatus.CREATED && decide (0 < d.job_count) &&
      decide (d.current_threads < d.max_threads) && !d.in_ready_queue &&
      !d.no_data && !d.is_view && !d.is_sequence) = true →
      (enqueue_table_if_ready_locked ti s).ready_table_queue =
        some (q ++ [ti]) ∧
      (enqueue_table_if_ready_locked ti s).tables[ti]? =
        some { d with in_ready_queue := true } ∧
      (enqueue_table_if_ready_locked ti s).data_control_queue =
        some (if 0 < s.threads_waiting then
          cq ++ [DataControlType.WAKE_DATA_THREAD] else cq)) ∧
    ((d.schema_state == SchemaStatus.CREATED && decide (0 < d.job_count) &&
      decide (d.current_threads < d.max_threads) && !d.in_ready_queue &&
      !d.no_data && !d.is_view && !d.is_sequence) = false →
      enqueue_table_if_ready_locked ti s = s) := by
  constructor
  · intro hcond
    have hcond' : table_ready_cond d = true := hcond
    refine ⟨?_, ?_, ?_⟩
    · simp only [enqueue_table_if_ready_locked, hq, hd, hcond', if_true]
      rw [wake_data_rtq]
    · simp only [enqueue_table_if_ready_locked, hq, hd, hcond', if_true]
      rw [wake_data_tables]
      exact getElem_set_of_some hd
    · simp only [enqueue_table_if_ready_locked, hq, hd, hcond', if_true]
      rw [wake_data_dcq cq]
      · rfl
      · exact hm
      · exact hc
  · intro hcond
    have hcond' : table_ready_cond d = false := hcond
    simp [enqueue_table_if_ready_locked, hq, hd, hcond']

/-- Witness for C2: a fully eligible table is enqueued and, with one parked
worker, a single WAKE_DATA_THREAD is posted. -/
theorem C2_enqueue_table_if_ready_iff_witness :
    (enqueue_table_if_ready_locked 0 sampleState).ready_table_queue =
      some [0] ∧
    (enqueue_table_if_ready_locked 0 sampleState).tables[0]? =
      some { sampleReady with in_ready_queue := true } ∧
    (enqueue_table_if_ready_locked 0 sampleState).data_control_queue =
      some [DataControlType.WAKE_DATA_THREAD] := by
  have h := (C2_enqueue_table_if_ready_iff sampleState 0 [] [] sampleReady
    rfl rfl rfl rfl).1 (by decide)
  refine ⟨?_, h.2.1, ?_⟩
  · have h1 := h.1
    simpa using h1
  · have h2 := h.2.2
    simpa using h2

/-- C3: a table's schema_state is set to DATA_DONE by
`give_me_next_data_job_conf` (fast-path recheck or fallback scan) only when
`all_jobs_are_enqueued` is true, its pending job count is zero, no jobs are
in flight and the atomic remaining counter is zero, and the index enqueue
for that table is invoked at that transition. -/
theorem C3_data_done_transition (s : GlobalState) (rj0 : Option Nat)
    (ti : Nat) (d0 : DbTable) (h0 : s.tables[ti]? = some d0)
    (hb : d0.schema_state ≠ .DATA_DONE) :
    ∀ d1, (give_me_next_data_job_conf s rj0).1.tables[ti]? = some d1 →
      d1.schema_state = .DATA_DONE →
      s.all_jobs_are_enqueued = true ∧ d1.job_count = 0 ∧
      d1.current_threads = 0 ∧ d1.remaining_jobs = 0 ∧
      ti ∈ (give_me_next_data_job_conf s rj0).1.index_enqueued := by
  have hdd : DdOKt ti s := by
    intro d hd hss
    rw [h0] at hd
    cases hd
    exact absurd hss hb
  have h1 := give_me_dd s rj0 hdd
  intro d1 hd1 hss1
  rcases h1 d1 hd1 hss1 with ⟨a, b, c, e, f⟩
  refine ⟨?_, b, c, e, f⟩
  rw [← give_me_aj s rj0]
  exact a

/-- Witness for C3: a drained CREATED table popped from the ready queue
after the parser finished is finalized to DATA_DONE with its index
enqueued. -/
theorem C3_data_done_transition_witness :
    (give_me_next_data_job_conf finalizeState none).1.tables[0]? =
      some finalizedTable ∧
    finalizedTable.schema_state = .DATA_DONE ∧
    finalizeState.all_jobs_are_enqueued = true ∧
    finalizedTable.job_count = 0 ∧ finalizedTable.current_threads = 0 ∧
    finalizedTable.remaining_jobs = 0 ∧
    0 ∈ (give_me_next_data_job_conf finalizeState none).1.index_enqueued := by
  have hres : (give_me_next_data_job_conf finalizeState none).1.tables[0]? =
      some finalizedTable := by decide
  rcases C3_data_done_transition finalizeState none 0
    { sampleReady with
      job_count := 0, restore_job_list := [],
      remaining_jobs := 0, in_ready_queue := true }
    (by decide) (by decide) finalizedTable hres (by decide)
    with ⟨a, b, c, e, f⟩
  exact ⟨hres, by decide, a, b, c, e, f⟩

/-- C4 counterexample: running the dispatcher on a CREATED `no_data` table
with two pending jobs leaves the table in ALL_DONE with its pending job
list and job count intact, refuting the claim that ALL_DONE implies an
empty pending list. -/
theorem C4_counterexample :
    (give_me_next_data_job_conf noDataState none).1.tables[0]? =
      some noDataDoneTable ∧
    noDataDoneTable.schema_state = .ALL_DONE ∧
    noDataDoneTable.job_count ≠ 0 ∧
    noDataDoneTable.restore_job_list ≠ [] ∧
    noDataDoneTable.current_threads = 0 := by
  refine ⟨by decide, by decide, by decide, by decide, by decide⟩

/-- C4 amended: the `no_data` branch of the fallback scan frees the
pending jobs' payloads, sets schema_state = ALL_DONE and increments the
done counter, but leaves the pending job list, the job count and the
in-flight count of the table unchanged; in particular a table can be
ALL_DONE with a non-empty pending list. -/
theorem C4_amended_no_data_branch (s : GlobalState) (ti : Nat) (g : Bool)
    (d : DbTable) (hd : s.tables[ti]? = some d)
    (h1 : (d.db_schema_state == SchemaStatus.NOT_FOUND) = false)
    (h2 : d.schema_state = .CREATED)
    (h3 : d.is_view = false) (h4 : d.is_sequence = false)
    (h5 : 0 < d.job_count) (h6 : d.no_data = true) :
    scan_body ti g s = .next
      { s with tables := s.tables.set ti { d with schema_state := .ALL_DONE },
               freed_payloads := s.freed_payloads ++ d.restore_job_list,
               tables_all_done := s.tables_all_done + 1 } g ∧
    ({ d with schema_state := SchemaStatus.ALL_DONE }).job_count =
      d.job_count ∧
    ({ d with schema_state := SchemaStatus.ALL_DONE }).restore_job_list =
      d.restore_job_list ∧
    ({ d with schema_state := SchemaStatus.ALL_DONE }).current_threads =
      d.current_threads := by
  refine ⟨?_, rfl, rfl, rfl⟩
  simp only [scan_body, hd, h1, h2, h3, h4, h6, Bool.false_eq_true, if_false,
             decide_eq_true_eq, SchemaStatus.code, beq_self_eq_true,
             Bool.true_and, Bool.or_self, Bool.or_false, bne_self_eq_false,
             h5, if_true]
  rfl

/-- Witness for C4 amended: the concrete `no_data` table with two pending
jobs. -/
theorem C4_amended_no_data_branch_witness :
    scan_body 0 true noDataState = .next
      { noDataState with
        tables := noDataState.tables.set 0
          { sampleReady with
            no_data := true, schema_state := SchemaStatus.ALL_DONE },
        freed_payloads := noDataState.freed_payloads ++ [10, 11],
        tables_all_done := noDataState.tables_all_done + 1 } true := by
  have h := (C4_amended_no_data_branch noDataState 0 true
    { sampleReady with no_data := true } rfl (by decide) (by decide)
    (by decide) (by decide) (by decide) (by decide)).1
  exact h

/-- C5 counterexample: with two parked workers, one WAKE_DATA_THREAD event
makes the dispatcher emit two REQUEST_DATA_JOB events, not exactly one. -/
theorem C5_counterexample :
    (dispatcher_step 4 .WAKE_DATA_THREAD twoParked).g.data_control_queue =
      some [DataControlType.REQUEST_DATA_JOB,
            DataControlType.REQUEST_DATA_JOB] ∧
    some [DataControlType.REQUEST_DATA_JOB,
          DataControlType.REQUEST_DATA_JOB] ≠
      some [DataControlType.REQUEST_DATA_JOB] := by
  constructor
  · decide
  · decide

/-- C5 amended: for every WAKE_DATA_THREAD event consumed by the
dispatcher loop, one REQUEST_DATA_JOB is emitted per currently parked
worker (that is, `threads_waiting` many, possibly zero), and
`threads_waiting` is reset to zero. -/
theorem C5_amended_wake_drains_all (numThreads : Nat) (ls : LoopState)
    (cq : List DataControlType)
    (hm : ls.g.threads_waiting_mutex = true)
    (hc : ls.g.data_control_queue = some cq) :
    (dispatcher_step numThreads .WAKE_DATA_THREAD ls).g.data_control_queue =
      some (cq ++ List.replicate ls.g.threads_waiting
        DataControlType.REQUEST_DATA_JOB) ∧
    (dispatcher_step numThreads .WAKE_DATA_THREAD ls).g.threads_waiting =
      0 := by
  constructor
  · show (wake_threads_waiting ls.g).data_control_queue = _
    rw [wake_threads_waiting, hm]
    simp only [Bool.true_eq_false, if_false]
    exact drain_queue _ ls.g cq hc
  · show (wake_threads_waiting ls.g).threads_waiting = 0
    rw [wake_threads_waiting, hm]
    simp only [Bool.true_eq_false, if_false]
    rw [drain_waiting_zero]
    split
    · rename_i h0
      rw [h0]
    · rfl

/-- Witness for C5 amended: two parked workers produce exactly two
REQUEST_DATA_JOB events and drain the counter. -/
theorem C5_amended_wake_drains_all_witness :
    (dispatcher_step 4 .WAKE_DATA_THREAD twoParked).g.data_control_queue =
      some [DataControlType.REQUEST_DATA_JOB,
            DataControlType.REQUEST_DATA_JOB] ∧
    (dispatcher_step 4 .WAKE_DATA_THREAD twoParked).g.threads_waiting = 0 := by
  rcases C5_amended_wake_drains_all 4 twoParked [] rfl rfl with ⟨h1, h2⟩
  constructor
  · rw [h1]
    rfl
  · exact h2

/-- C6: `give_me_next_data_job_conf` preserves the invariant that every
table's in-flight count is at most its per-table cap: both the fast path
and the fallback scan increment `current_threads` only after checking
`current_threads < max_threads` under the table lock, and nothing in the
function decrements it. -/
theorem C6_current_threads_bounded (s : GlobalState) (rj0 : Option Nat)
    (h : ∀ (ti : Nat) (d : DbTable), s.tables[ti]? = some d →
      d.current_threads ≤ d.max_threads) :
    ∀ (ti : Nat) (d : DbTable),
      (give_me_next_data_job_conf s rj0).1.tables[ti]? = some d →
      d.current_threads ≤ d.max_threads :=
  give_me_ct s rj0 h

/-- Witness for C6: after dispatching a job from the concrete ready table,
its in-flight count is still within the cap. -/
theorem C6_current_threads_bounded_witness :
    (give_me_next_data_job_conf alreadyQueuedState none).1.tables[0]? =
      some dispatchedTable ∧
    dispatchedTable.current_threads ≤ dispatchedTable.max_threads := by
  have h0 : ∀ (ti : Nat) (d : DbTable),
      alreadyQueuedState.tables[ti]? = some d →
      d.current_threads ≤ d.max_threads := by
    intro ti d hd
    rcases ti with _ | ti
    · cases hd
      decide
    · cases hd
  have hres : (give_me_next_data_job_conf alreadyQueuedState
      none).1.tables[0]? = some dispatchedTable := by decide
  exact ⟨hres,
    C6_current_threads_bounded alreadyQueuedState none h0 0 dispatchedTable hres⟩

/-- C7: calling `enqueue_table_if_ready_locked` on a table that is
otherwise eligible but already has `in_ready_queue` = true is a no-op: the
state is returned unchanged, so nothing is pushed and no wakeup is
posted. -/
theorem C7_enqueue_idempotent_on_queued (s : GlobalState) (ti : Nat)
    (d : DbTable) (hd : s.tables[ti]? = some d)
    (h1 : d.schema_state = .CREATED) (h2 : 0 < d.job_count)
    (h3 : d.current_threads < d.max_threads) (h4 : d.no_data = false)
    (h5 : d.is_view = false) (h6 : d.is_sequence = false)
    (hq : d.in_ready_queue = true) :
    enqueue_table_if_ready_locked ti s = s := by
  rcases hqq : s.ready_table_queue with _ | q
  · simp [enqueue_table_if_ready_locked, hqq]
  · have hc : table_ready_cond d = false := by
      simp [table_ready_cond, hq]
    simp [enqueue_table_if_ready_locked, hqq, hd, hc]

/-- Witness for C7: the concrete eligible-but-queued table is left
untouched. -/
theorem C7_enqueue_idempotent_on_queued_witness :
    enqueue_table_if_ready_locked 0 alreadyQueuedState = alreadyQueuedState :=
  C7_enqueue_idempotent_on_queued alreadyQueuedState 0
    { sampleReady with in_ready_queue := true } rfl (by decide) (by decide)
    (by decide) (by decide) (by decide) (by decide) (by decide)

/-- C8: on FILE_TYPE_ENDED the dispatcher refreshes the loading table
list, enqueues indexes for already-done tables, sets
`all_jobs_are_enqueued` and posts one REQUEST_DATA_JOB, in that order;
the trace shows the flag is set only after the refresh. -/
theorem C8_file_type_ended_order (numThreads : Nat) (ls : LoopState)
    (cq : List DataControlType)
    (hc : ls.g.data_control_queue = some cq) :
    (dispatcher_step numThreads .FILE_TYPE_ENDED ls).g.all_jobs_are_enqueued =
      true ∧
    (dispatcher_step numThreads .FILE_TYPE_ENDED ls).g.data_control_queue =
      some (cq ++ [DataControlType.REQUEST_DATA_JOB]) ∧
    (dispatcher_step numThreads .FILE_TYPE_ENDED ls).g.trace =
      ls.g.trace ++
        [TraceEvt.refreshTableList, TraceEvt.enqueueIndexesIfPossible,
         TraceEvt.setAllJobsEnqueued,
         TraceEvt.pushedControl DataControlType.REQUEST_DATA_JOB] ∧
    (dispatcher_step numThreads .FILE_TYPE_ENDED ls).g.loading_table_list =
      ls.g.parser_seen := by
  refine ⟨?_, ?_, ?_, ?_⟩ <;>
    simp [dispatcher_step, refresh_table_list, enqueue_indexes_if_possible,
          data_control_queue_push, hc]

/-- Witness for C8 at the empty-registry loop state. -/
theorem C8_file_type_ended_order_witness :
    (dispatcher_step 4 .FILE_TYPE_ENDED emptyLoop).g.all_jobs_are_enqueued =
      true ∧
    (dispatcher_step 4 .FILE_TYPE_ENDED emptyLoop).g.data_control_queue =
      some [DataControlType.REQUEST_DATA_JOB] ∧
    (dispatcher_step 4 .FILE_TYPE_ENDED emptyLoop).g.trace =
      [TraceEvt.refreshTableList, TraceEvt.enqueueIndexesIfPossible,
       TraceEvt.setAllJobsEnqueued,
       TraceEvt.pushedControl DataControlType.REQUEST_DATA_JOB] := by
  rcases C8_file_type_ended_order 4 emptyLoop [] rfl with ⟨h1, h2, h3, h4⟩
  refine ⟨h1, ?_, ?_⟩
  · rw [h2]
    rfl
  · rw [h3]
    rfl

/-- C9: tables whose database is NOT_FOUND are skipped by the fallback
scan without clearing `giveup`; when the ready queue is empty and every
listed table is skipped or terminal for data,
`give_me_next_data_job_conf` returns no job with giveup = true, and if
`all_jobs_are_enqueued` also holds the dispatcher sets
`control_job_ended`, signals the data end and exits on that
REQUEST_DATA_JOB. -/
theorem C9_empty_dump_termination (numThreads : Nat) (ls : LoopState)
    (hq : ls.g.ready_table_queue = some [])
    (hall : ∀ ti, ti ∈ ls.g.loading_table_list →
      ∃ d, ls.g.tables[ti]? = some d ∧ ScanSkip d) :
    (∀ (ti : Nat) (g : Bool) (d : DbTable), ls.g.tables[ti]? = some d →
      d.db_schema_state = .NOT_FOUND → scan_body ti g ls.g = .next ls.g g) ∧
    give_me_next_data_job_conf ls.g ls.rj = (ls.g, true, none) ∧
    (ls.g.all_jobs_are_enqueued = true →
      dispatcher_step numThreads .REQUEST_DATA_JOB ls =
        { g := data_ended { ls.g with control_job_ended := true },
          rj := none, cont := false }) := by
  have hgive : give_me_next_data_job_conf ls.g ls.rj = (ls.g, true, none) := by
    simp only [give_me_next_data_job_conf, hq, fast_loop, scan_outer]
    exact scan_loop_skip _ true ls.g hall
  refine ⟨?_, hgive, ?_⟩
  · intro ti g d hd hnf
    exact scan_body_skip g hd (Or.inl hnf)
  · intro haj
    simp only [dispatcher_step, hgive, haj, Bool.true_and, if_true]

/-- Witness for C9: one table in a NOT_FOUND database and one ALL_DONE
table; the dispatcher terminates on the first REQUEST_DATA_JOB. -/
theorem C9_empty_dump_termination_witness :
    give_me_next_data_job_conf drainedLoop.g drainedLoop.rj =
      (drainedLoop.g, true, none) ∧
    dispatcher_step 4 .REQUEST_DATA_JOB drainedLoop =
      { g := data_ended { drainedLoop.g with control_job_ended := true },
        rj := none, cont := false } := by
  have hall : ∀ ti, ti ∈ drainedLoop.g.loading_table_list →
      ∃ d, drainedLoop.g.tables[ti]? = some d ∧ ScanSkip d := by
    intro ti hm
    have hti : ti = 0 ∨ ti = 1 := by
      have hm2 : ti ∈ [0, 1] := hm
      simpa using hm2
    rcases hti with hti | hti
    · subst hti
      exact ⟨_, rfl, Or.inl rfl⟩
    · subst hti
      refine ⟨_, rfl, Or.inr (Or.inl ?_)⟩
      decide
  rcases C9_empty_dump_termination 4 drainedLoop rfl hall with ⟨_, h2, h3⟩
  exact ⟨h2, h3 rfl⟩

/-- C10: the result of `give_me_next_data_job_conf` does not depend on the
value the caller's `*rj` cell held on entry — every return path overwrites
it — so the dispatcher's reused `rj` variable never carries a stale job
from one REQUEST_DATA_JOB into a later one. -/
theorem C10_rj_never_stale (s : GlobalState) (a b : Option Nat) :
    give_me_next_data_job_conf s a = give_me_next_data_job_conf s b := by
  rcases hq : s.ready_table_queue with _ | q
  · simp only [give_me_next_data_job_conf, hq]
  · simp only [give_me_next_data_job_conf, hq]
    exact fast_loop_rj_indep q a b s

end MyloaderMain
